import Mathlib

/-!
Verification of the `langgraph-checkpoint-mysql` repository: a MySQL-backed
checkpoint saver and store for the langgraph execution engine.  The PyMySQL
driver adapter (`src/langgraph/checkpoint/mysql/pymysql.py`,
`src/langgraph/store/mysql/pymysql.py`) is embedded directly from the source;
the core checkpoint store (base saver, filter engine, pending-writes ledger)
is not part of the provided sources, so it is modelled from the specification
where a claim requires it, as marked in the doc comments.
-/

namespace LGMySQL

mutual
/-- A structured (JSON-like) value, as carried in checkpoint metadata and
channel values.  Deep structural equality is the equality of this type. -/
inductive Value where
  | null : Value
  | bool : Bool → Value
  | int : Int → Value
  | str : String → Value
  | list : ValueList → Value
  | obj : ValueObj → Value
  deriving DecidableEq, Repr

/-- A sequence of structured values. -/
inductive ValueList where
  | nil : ValueList
  | cons : Value → ValueList → ValueList
  deriving DecidableEq, Repr

/-- A mapping (ordered association list) from string keys to structured
values, as in a JSON object. -/
inductive ValueObj where
  | nil : ValueObj
  | cons : String → Value → ValueObj → ValueObj
  deriving DecidableEq, Repr
end

/-- Strip embedded null bytes from a string (persisted strings have the
null byte removed). -/
def stripNullStr (s : String) : String :=
  String.mk (s.data.filter (fun c => c ≠ Char.ofNat 0))

mutual
/-- Modelled from the spec: persisted values "must tolerate embedded null
bytes on write and must round-trip with nulls stripped on read"; the null
byte "is stripped from persisted strings".  Recursively strips null bytes
from every string in a structured value. -/
def sanitize : Value → Value
  | .null => .null
  | .bool b => .bool b
  | .int n => .int n
  | .str s => .str (stripNullStr s)
  | .list xs => .list (sanitizeList xs)
  | .obj kvs => .obj (sanitizeObj kvs)

def sanitizeList : ValueList → ValueList
  | .nil => .nil
  | .cons v vs => .cons (sanitize v) (sanitizeList vs)

def sanitizeObj : ValueObj → ValueObj
  | .nil => .nil
  | .cons k v kvs => .cons (stripNullStr k) (sanitize v) (sanitizeObj kvs)
end

/-- The entries of a metadata object, as a list of key/value pairs. -/
def objEntries : ValueObj → List (String × Value)
  | .nil => []
  | .cons k v kvs => (k, v) :: objEntries kvs

/-- Association lookup in a metadata object (first match wins, as in a
JSON object read into a mapping). -/
def objLookup (k : String) : ValueObj → Option Value
  | .nil => none
  | .cons k' v kvs => if k' = k then some v else objLookup k kvs

/-- Association lookup in a keyed list (first match wins). -/
def alookup {κ ν : Type} [DecidableEq κ] (k : κ) : List (κ × ν) → Option ν
  | [] => none
  | (k', v) :: r => if k' = k then some v else alookup k r

/-- Keyed insert-or-replace: replaces the first entry with the given key,
or appends when the key is absent.  All persisted relations are keyed, so
re-writing a key overwrites rather than duplicates. -/
def upsert {κ ν : Type} [DecidableEq κ] (k : κ) (v : ν) : List (κ × ν) → List (κ × ν)
  | [] => [(k, v)]
  | (k', v') :: r => if k' = k then (k, v) :: r else (k', v') :: upsert k v r

/-- The addressing triple: every persisted object is keyed by
(thread_id, checkpoint_ns, checkpoint_id). -/
structure Addr where
  thread_id : String
  checkpoint_ns : String
  checkpoint_id : String
  deriving DecidableEq, Repr

/-- A stored checkpoint row: parent linkage, the (sanitized) metadata
envelope and the serialized pending sends, per the logical schema. -/
structure CheckpointRow where
  parent_checkpoint_id : Option String
  metadata : ValueObj
  pending_sends : ValueList
  deriving DecidableEq, Repr

/-- The caller-supplied part of a checkpoint handed to `put`: parent
linkage, the channel-value mapping and the pending-sends sequence. -/
structure CheckpointInput where
  parent_checkpoint_id : Option String
  channel_values : List (String × Value)
  pending_sends : ValueList
  deriving DecidableEq, Repr

/-- Modelled from the spec: the backend state, holding the three logical
relations of the schema — a checkpoints relation keyed by the addressing
triple, a channel-values relation, a channel-versions relation — and a
pending-writes relation keyed by (address, task_id, channel). -/
structure DB where
  checkpoints : List (Addr × CheckpointRow)
  channel_values : List (Addr × List (String × Value))
  channel_versions : List (Addr × List (String × Nat))
  pending_writes : List ((Addr × String × String) × Value)
  deriving DecidableEq, Repr

/-- The empty backend state (after setup, before any write). -/
def DB.empty : DB := ⟨[], [], [], []⟩

/-- Modelled from the spec: first sub-write of `put` — persist the
checkpoint core fields (parent linkage, metadata, pending sends) under
the addressing triple; the metadata envelope is persisted with null
bytes stripped. -/
def subwriteCheckpointRow (addr : Addr) (cp : CheckpointInput) (md : ValueObj) (db : DB) : DB :=
  { db with checkpoints :=
      upsert addr ⟨cp.parent_checkpoint_id, sanitizeObj md, cp.pending_sends⟩ db.checkpoints }

/-- Modelled from the spec: second sub-write of `put` — persist the
channel-value mapping of the checkpoint (channel names are persisted
strings, so null bytes are stripped from them). -/
def subwriteChannelValues (addr : Addr) (cp : CheckpointInput) (db : DB) : DB :=
  { db with channel_values :=
      upsert addr (cp.channel_values.map (fun e => (stripNullStr e.1, e.2))) db.channel_values }

/-- Modelled from the spec: third sub-write of `put` — merge the
caller-supplied new channel versions into the channel-version relation
for the checkpoint being written. -/
def subwriteMergeVersions (addr : Addr) (nv : List (String × Nat)) (db : DB) : DB :=
  let merged := nv.foldl (fun acc e => upsert e.1 e.2 acc)
    ((alookup addr db.channel_versions).getD [])
  { db with channel_versions := upsert addr merged db.channel_versions }

/-- A transactional unit of work over the backend state: `committed` is
what concurrent readers (and a process restarted after a crash) observe,
`working` is the uncommitted in-transaction state. -/
structure TxState where
  committed : DB
  working : DB
  deriving DecidableEq, Repr

/-- Begin a transaction: the working state starts from the committed one. -/
def txBegin (db : DB) : TxState := ⟨db, db⟩

/-- Apply one statement inside the transaction: only the working state
changes; nothing becomes visible. -/
def txApply (f : DB → DB) (t : TxState) : TxState := ⟨t.committed, f t.working⟩

/-- Commit: the working state becomes the committed, visible state. -/
def txCommit (t : TxState) : TxState := ⟨t.working, t.working⟩

/-- The state visible outside the transaction (also the state that
survives a crash, since uncommitted work is rolled back). -/
def txVisible (t : TxState) : DB := t.committed

/-- Modelled from the spec: the three sub-writes of `put` (checkpoint
row, channel values, version merge), in order. -/
def putSubwrites (addr : Addr) (cp : CheckpointInput) (md : ValueObj)
    (nv : List (String × Nat)) : List (DB → DB) :=
  [subwriteCheckpointRow addr cp md, subwriteChannelValues addr cp, subwriteMergeVersions addr nv]

/-- Modelled from the spec: `put` persists the checkpoint core fields,
its channel values, and merges the new versions into the channel-version
table, all as one atomic unit (one transaction that commits after the
three sub-writes).  Address resolution of an omitted checkpoint_id is
elided: the address is taken as already resolved. -/
def put (db : DB) (addr : Addr) (cp : CheckpointInput) (md : ValueObj)
    (nv : List (String × Nat)) : DB :=
  txVisible (txCommit ((putSubwrites addr cp md nv).foldl (fun t f => txApply f t) (txBegin db)))

/-- The distinguished sentinel channel name, `TASKS` from the serde types
of the langgraph checkpoint dependency: a write to this channel represents
an entry of the checkpoint pending_sends sequence. -/
def TASKS : String := "__pregel_tasks"

/-- Modelled from the spec: `putWrites` appends each (channel, value)
pair under (address, task_id).  The relation is keyed by
(address, task_id, channel), so a repeat write with the same key replaces
rather than duplicates.  Channel names are persisted strings, so null
bytes are stripped from them. -/
def putWrites (db : DB) (addr : Addr) (task_id : String)
    (writes : List (String × Value)) : DB :=
  let tbl := writes.foldl (fun tbl e => upsert (addr, task_id, stripNullStr e.1) e.2 tbl)
    db.pending_writes
  { db with pending_writes := tbl }

/-- A pending-write triple as surfaced by the read path. -/
structure PW where
  task_id : String
  channel : String
  value : Value
  deriving DecidableEq, Repr

/-- Lexicographic comparison of character sequences by code point,
modelling the binary collation the backend applies to identifier
columns when ordering rows. -/
def lexLt : List Char → List Char → Bool
  | [], [] => false
  | [], _ :: _ => true
  | _ :: _, [] => false
  | a :: as, b :: bs =>
    if a.toNat < b.toNat then true
    else if b.toNat < a.toNat then false
    else lexLt as bs

/-- Strict lexicographic order on strings. -/
def strLt (a b : String) : Prop := lexLt a.data b.data = true

/-- Reflexive lexicographic order on strings. -/
def strLe (a b : String) : Prop := strLt a b ∨ a = b

instance : DecidableRel strLt := fun a b => by
  unfold strLt; infer_instance

instance : DecidableRel strLe := fun a b => by
  unfold strLe; infer_instance

/-- The deterministic read order of pending writes: by channel name
first, then by task identifier. -/
def pwKeyLE (x y : PW) : Prop :=
  strLt x.channel y.channel ∨ (x.channel = y.channel ∧ strLe x.task_id y.task_id)

instance : DecidableRel pwKeyLE := fun x y => by
  unfold pwKeyLE; infer_instance

/-- All pending writes recorded against a checkpoint, in table order. -/
def pendingFor (db : DB) (addr : Addr) : List PW :=
  db.pending_writes.filterMap fun e =>
    if e.1.1 = addr then some ⟨e.1.2.1, e.1.2.2, e.2⟩ else none

/-- Modelled from the spec: the ledger read path returns all pending
writes for a checkpoint ordered deterministically by channel name first,
then by task identifier. -/
def readPendingWrites (db : DB) (addr : Addr) : List PW :=
  List.insertionSort pwKeyLE (pendingFor db addr)

/-- Modelled from the spec: the pending-sends sequence derived from
writes to the sentinel channel, surfaced in the reconstructed checkpoint
after the stored sends. -/
def readPendingSends (db : DB) (addr : Addr) : List Value :=
  ((readPendingWrites db addr).filter (fun w => w.channel = TASKS)).map PW.value

/-- The stored sends of a row as a list. -/
def valueListToList : ValueList → List Value
  | .nil => []
  | .cons v vs => v :: valueListToList vs

/-- A reconstructed read view: the checkpoint row joined with its channel
values, channel versions, derived pending sends and pending writes. -/
structure CheckpointTuple where
  addr : Addr
  parent_checkpoint_id : Option String
  channel_values : List (String × Value)
  channel_versions : List (String × Nat)
  pending_sends : List Value
  metadata : ValueObj
  pending_writes : List PW
  deriving DecidableEq, Repr

/-- Modelled from the spec: assemble the full read view of one stored
checkpoint row. -/
def assembleTuple (db : DB) (addr : Addr) (row : CheckpointRow) : CheckpointTuple :=
  { addr := addr
    parent_checkpoint_id := row.parent_checkpoint_id
    channel_values := (alookup addr db.channel_values).getD []
    channel_versions := (alookup addr db.channel_versions).getD []
    pending_sends := valueListToList row.pending_sends ++ readPendingSends db addr
    metadata := row.metadata
    pending_writes := readPendingWrites db addr }

/-- Modelled from the spec: `getTuple` at a fully resolved address —
the explicit empty result when no checkpoint is stored there, otherwise
the assembled tuple.  (Latest-checkpoint resolution for an omitted
checkpoint_id is elided.) -/
def getTuple (db : DB) (addr : Addr) : Option CheckpointTuple :=
  match alookup addr db.checkpoints with
  | none => none
  | some row => some (assembleTuple db addr row)

/-- Modelled from the spec: a checkpoint matches a metadata filter iff,
for every key present in the filter, the checkpoint metadata contains
that key with a structurally equal value; an empty filter matches every
checkpoint. -/
def matchesFilter : ValueObj → ValueObj → Bool
  | .nil, _ => true
  | .cons k v rest, md =>
    (match objLookup k md with
     | some w => decide (w = v)
     | none => false)
    && matchesFilter rest md

/-- Newest-first ordering of stored rows by checkpoint identifier. -/
def newerFirst (x y : Addr × CheckpointRow) : Prop :=
  strLe y.1.checkpoint_id x.1.checkpoint_id

instance : DecidableRel newerFirst := fun x y => by
  unfold newerFirst; infer_instance

/-- Modelled from the spec: `list` produces checkpoints newest-first by
checkpoint identifier, optionally scoped to a thread (across all its
namespaces), restricted to rows whose metadata satisfies the exact-match
filter. -/
def listCheckpoints (db : DB) (threadScope : Option String) (filter : ValueObj) :
    List CheckpointTuple :=
  ((List.insertionSort newerFirst db.checkpoints).filter fun e =>
      (match threadScope with
       | none => true
       | some t => decide (e.1.thread_id = t))
      && matchesFilter filter e.2.metadata).map
    fun e => assembleTuple db e.1 e.2

/-!
Driver adapter, embedded from `src/langgraph/checkpoint/mysql/pymysql.py`
and `src/langgraph/store/mysql/pymysql.py`.
-/

/-- The components of `urllib.parse.urlparse` read by the adapter,
together with the query pairs as produced by `urllib.parse.parse_qsl`. -/
structure ParsedUrl where
  hostname : Option String
  username : Option String
  password : Option String
  path : String
  port : Option Nat
  query : List (String × String)
  deriving DecidableEq, Repr

/-- Python `x or d` on an optional string: `None` and the empty string
are falsy. -/
def pyStrOr (x : Option String) (d : String) : String :=
  match x with
  | none => d
  | some s => if s = "" then d else s

/-- Python `x or d` on an optional integer: `None` and `0` are falsy. -/
def pyNatOr (x : Option Nat) (d : Nat) : Nat :=
  match x with
  | none => d
  | some n => if n = 0 then d else n

/-- `dict(parse_qsl(query)).get(k)`: building a dict keeps the last
value for a repeated key. -/
def dictGet (k : String) (q : List (String × String)) : Option String :=
  q.foldl (fun acc e => if e.1 = k then some e.2 else acc) none

/-- The keyword arguments handed to `pymysql.connect`.  The saver passes
`database` as a plain string; it is injected into `Option` here so the
saver and the store derivations share one type (`none` models the Python
`None` argument). -/
structure ConnectArgs where
  host : Option String
  user : Option String
  password : String
  database : Option String
  port : Nat
  unix_socket : Option String
  deriving DecidableEq, Repr

/-- From `PyMySQLSaver.from_conn_string` (lines 41-47): host, user,
`password or ""`, `path[1:]`, `port or 3306`, and the `unix_socket`
query parameter. -/
def saverConnectArgs (p : ParsedUrl) : ConnectArgs :=
  { host := p.hostname
    user := p.username
    password := pyStrOr p.password ""
    database := some (p.path.drop 1)
    port := pyNatOr p.port 3306
    unix_socket := dictGet "unix_socket" p.query }

/-- From `PyMySQLStore.parse_conn_string` (lines 23-30): identical to
the saver derivation except that `database` is `path[1:] or None`, so an
empty database name becomes `None`. -/
def storeConnectArgs (p : ParsedUrl) : ConnectArgs :=
  { host := p.hostname
    user := p.username
    password := pyStrOr p.password ""
    database := if p.path.drop 1 = "" then none else some (p.path.drop 1)
    port := pyNatOr p.port 3306
    unix_socket := dictGet "unix_socket" p.query }

/-- The exception classes the classifier can meet (`isinstance` tests
against `pymysql.ProgrammingError`). -/
inductive ExcClass where
  | programmingError
  | operationalError
  | integrityError
  | otherClass (name : String)
  deriving DecidableEq, Repr

/-- A backend exception: its class and its args tuple, whose first
element is the numeric error code. -/
structure PyException where
  cls : ExcClass
  code : Int
  msg : String
  deriving DecidableEq, Repr

/-- `pymysql.constants.ER.NO_SUCH_TABLE`. -/
def NO_SUCH_TABLE : Int := 1146

/-- From `PyMySQLSaver._is_no_such_table_error` (identical in
`PyMySQLStore`): true exactly when the exception is a
`pymysql.ProgrammingError` whose first argument equals the
`NO_SUCH_TABLE` error code. -/
def is_no_such_table_error (e : PyException) : Bool :=
  decide (e.cls = ExcClass.programmingError) && decide (e.code = NO_SUCH_TABLE)

/-- Modelled from the spec: on a SchemaMissing classification the store
runs the one-time schema initialization and retries the original
operation exactly once; every other error is surfaced unmodified. -/
def runWithSchemaRetry {α : Type} (op : DB → Except PyException (DB × α))
    (setup : DB → DB) (db : DB) : Except PyException (DB × α) :=
  match op db with
  | .ok r => .ok r
  | .error e => if is_no_such_table_error e then op (setup db) else .error e

/-- Lock and cursor events of one pass through a `_cursor` scope, in
program order. -/
inductive CursorEv where
  | lockAcquire
  | lockRelease
  | cursorOpen
  | cursorClose
  | cursorUse
  deriving DecidableEq, Repr

/-- From `PyMySQLSaver._cursor` (lines 60-65):
`with self.lock, conn.cursor(DictCursor) as cur: yield cur` — the lock
is acquired, the cursor opened, handed to the caller for the statement,
then closed, and the lock released. -/
def saverCursorTrace : List CursorEv :=
  [.lockAcquire, .cursorOpen, .cursorUse, .cursorClose, .lockRelease]

/-- From `PyMySQLStore._cursor` (lines 60-62):
`return self.conn.cursor(DictCursor)` — the cursor is opened and handed
to the caller; no lock is acquired and no scope closes the cursor in
this path. -/
def storeCursorTrace : List CursorEv :=
  [.cursorOpen, .cursorUse]

/-- Whether every cursor use in the trace happens while the lock is
held, starting from the given lock state. -/
def usesUnderLock (held : Bool) : List CursorEv → Bool
  | [] => true
  | .lockAcquire :: r => usesUnderLock true r
  | .lockRelease :: r => usesUnderLock false r
  | .cursorUse :: r => held && usesUnderLock held r
  | .cursorOpen :: r => usesUnderLock held r
  | .cursorClose :: r => usesUnderLock held r

/-!
Concrete fixtures mirroring `src/tests/test_sync.py`.
-/

/-- Address of config_1 of the test fixture (thread-1, root namespace,
checkpoint "1"). -/
def addr1 : Addr := ⟨"thread-1", "", "1"⟩

/-- Address of config_2 of the test fixture. -/
def addr2 : Addr := ⟨"thread-2", "", "2"⟩

/-- Address of config_3 of the test fixture (namespace "inner"). -/
def addr3 : Addr := ⟨"thread-2", "inner", "2-inner"⟩

/-- An empty checkpoint input: no parent, no channel values, no sends. -/
def cpEmpty : CheckpointInput := ⟨none, [], .nil⟩

/-- metadata_1 of the test fixture. -/
def md1 : ValueObj :=
  .cons "source" (.str "input") (.cons "step" (.int 2)
    (.cons "writes" (.obj .nil) (.cons "score" (.int 1) .nil)))

/-- metadata_2 of the test fixture. -/
def md2 : ValueObj :=
  .cons "source" (.str "loop") (.cons "step" (.int 1)
    (.cons "writes" (.obj (.cons "foo" (.str "bar") .nil)) (.cons "score" .null .nil)))

/-- metadata_3 of the test fixture: the empty mapping. -/
def md3 : ValueObj := .nil

/-- The backend state after the three puts of `test_search`. -/
def testDb : DB :=
  put (put (put DB.empty addr1 cpEmpty md1 []) addr2 cpEmpty md2 []) addr3 cpEmpty md3 []

/-- query_4 of `test_search`: a filter no stored checkpoint satisfies. -/
def query4 : ValueObj := .cons "source" (.str "update") (.cons "step" (.int 1) .nil)

/-- The state of `test_write_and_read_pending_writes_and_sends` after
the put and the two putWrites calls, in test order: channels w1, w2 for
task "world", then the sentinel channel for task "hello". -/
def writesDb : DB :=
  putWrites
    (putWrites (put DB.empty addr1 cpEmpty .nil [])
      addr1 "world" [("w1", .str "w1v"), ("w2", .str "w2v")])
    addr1 "hello" [(TASKS, .str "w3v")]

/-- The same two putWrites calls appended in the opposite order. -/
def writesDbSwapped : DB :=
  putWrites
    (putWrites (put DB.empty addr1 cpEmpty .nil [])
      addr1 "hello" [(TASKS, .str "w3v")])
    addr1 "world" [("w1", .str "w1v"), ("w2", .str "w2v")]

/-- A parsed connection string with no port, no password and a
unix_socket query parameter. -/
def samplePU : ParsedUrl :=
  ⟨some "localhost", some "user", none, "/db", none,
    [("unix_socket", "/tmp/mysql.sock")]⟩

/-- A parsed connection string whose path names a database. -/
def pathPU : ParsedUrl :=
  ⟨some "localhost", some "user", some "secret", "/mydb", some 3307, []⟩

/-- A parsed connection string with an empty path (no database named). -/
def rootPU : ParsedUrl :=
  ⟨some "localhost", some "user", some "secret", "/", none, []⟩

/-- A ProgrammingError carrying the NO_SUCH_TABLE code. -/
def noTableExc : PyException := ⟨ExcClass.programmingError, 1146, "no such table"⟩

/-- An OperationalError (server has gone away), not schema related. -/
def goneExc : PyException := ⟨ExcClass.operationalError, 2006, "server has gone away"⟩

/-!
Generic lemmas about the keyed relations and the transaction model.
-/

theorem lexLt_irrefl : ∀ l : List Char, lexLt l l = false
  | [] => rfl
  | a :: as => by simp [lexLt, Nat.lt_irrefl, lexLt_irrefl as]

theorem lexLt_asymm : ∀ {a b : List Char}, lexLt a b = true → lexLt b a = false
  | [], [], h => by simp [lexLt] at h
  | [], _ :: _, _ => rfl
  | _ :: _, [], h => by simp [lexLt] at h
  | x :: xs, y :: ys, h => by
    simp only [lexLt] at h ⊢
    by_cases h1 : x.toNat < y.toNat
    · have h2 : ¬ y.toNat < x.toNat := Nat.lt_asymm h1
      simp [h1, h2]
    · by_cases h2 : y.toNat < x.toNat
      · simp [h1, h2] at h
      · simp [h1, h2] at h ⊢
        exact lexLt_asymm h

theorem lexLt_trans : ∀ {a b c : List Char},
    lexLt a b = true → lexLt b c = true → lexLt a c = true
  | [], [], _, h, _ => by simp [lexLt] at h
  | [], _ :: _, [], _, h => by simp [lexLt] at h
  | [], _ :: _, _ :: _, _, _ => rfl
  | _ :: _, [], _, h, _ => by simp [lexLt] at h
  | _ :: _, _ :: _, [], _, h => by simp [lexLt] at h
  | x :: xs, y :: ys, z :: zs, h1, h2 => by
    simp only [lexLt] at h1 h2 ⊢
    by_cases a1 : x.toNat < y.toNat
    · by_cases b1 : y.toNat < z.toNat
      · simp [Nat.lt_trans a1 b1]
      · by_cases b2 : z.toNat < y.toNat
        · simp [b1, b2] at h2
        · have e2 : y.toNat = z.toNat :=
            Nat.le_antisymm (Nat.not_lt.mp b2) (Nat.not_lt.mp b1)
          have hx : x.toNat < z.toNat := e2 ▸ a1
          simp [hx]
    · by_cases a2 : y.toNat < x.toNat
      · simp [a1, a2] at h1
      · have e1 : x.toNat = y.toNat :=
          Nat.le_antisymm (Nat.not_lt.mp a2) (Nat.not_lt.mp a1)
        simp [a1, a2] at h1
        by_cases b1 : y.toNat < z.toNat
        · have hx : x.toNat < z.toNat := e1 ▸ b1
          simp [hx]
        · by_cases b2 : z.toNat < y.toNat
          · simp [b1, b2] at h2
          · have e2 : y.toNat = z.toNat :=
              Nat.le_antisymm (Nat.not_lt.mp b2) (Nat.not_lt.mp b1)
            simp [b1, b2] at h2
            have ex1 : ¬ x.toNat < z.toNat := by
              rw [e1, e2]; exact Nat.lt_irrefl _
            have ex2 : ¬ z.toNat < x.toNat := by
              rw [e1, e2]; exact Nat.lt_irrefl _
            simp [ex1, ex2]
            exact lexLt_trans h1 h2

theorem lexLt_eq_of_not : ∀ {a b : List Char},
    lexLt a b = false → lexLt b a = false → a = b
  | [], [], _, _ => rfl
  | [], _ :: _, h, _ => by simp [lexLt] at h
  | _ :: _, [], _, h => by simp [lexLt] at h
  | x :: xs, y :: ys, h1, h2 => by
    simp only [lexLt] at h1 h2
    by_cases a1 : x.toNat < y.toNat
    · simp [a1] at h1
    · by_cases a2 : y.toNat < x.toNat
      · simp [a2] at h2
      · have e : x = y :=
          Char.eq_of_val_eq (UInt32.toNat.inj
            (Nat.le_antisymm (Nat.not_lt.mp a2) (Nat.not_lt.mp a1)))
        simp [a1, a2] at h1 h2
        rw [e, lexLt_eq_of_not h1 h2]

theorem strLt_asymm {a b : String} (h : strLt a b) : ¬ strLt b a := by
  unfold strLt at *
  simp [lexLt_asymm h]

theorem strLt_irrefl (a : String) : ¬ strLt a a := by
  simp [strLt, lexLt_irrefl]

theorem strLt_trans {a b c : String} (h1 : strLt a b) (h2 : strLt b c) :
    strLt a c := lexLt_trans h1 h2

theorem str_eq_of_not_lt {a b : String} (h1 : ¬ strLt a b) (h2 : ¬ strLt b a) :
    a = b := by
  obtain ⟨la⟩ := a
  obtain ⟨lb⟩ := b
  unfold strLt at h1 h2
  simp only [Bool.not_eq_true] at h1 h2
  exact congrArg String.mk (lexLt_eq_of_not h1 h2)

theorem strLe_antisymm {a b : String} (h1 : strLe a b) (h2 : strLe b a) :
    a = b := by
  rcases h2 with h2 | h2
  · rcases h1 with h1 | h1
    · exact absurd h2 (strLt_asymm h1)
    · exact h1
  · exact h2.symm

theorem strLe_trans {a b c : String} (h1 : strLe a b) (h2 : strLe b c) :
    strLe a c := by
  rcases h1 with h1 | h1
  · rcases h2 with h2 | h2
    · exact Or.inl (strLt_trans h1 h2)
    · exact Or.inl (h2 ▸ h1)
  · rw [h1]
    exact h2

instance : IsTotal PW pwKeyLE where
  total x y := by
    unfold pwKeyLE
    by_cases h1 : strLt x.channel y.channel
    · exact Or.inl (Or.inl h1)
    by_cases h2 : strLt y.channel x.channel
    · exact Or.inr (Or.inl h2)
    have e := str_eq_of_not_lt h1 h2
    by_cases h3 : strLt x.task_id y.task_id
    · exact Or.inl (Or.inr ⟨e, Or.inl h3⟩)
    by_cases h4 : strLt y.task_id x.task_id
    · exact Or.inr (Or.inr ⟨e.symm, Or.inl h4⟩)
    exact Or.inl (Or.inr ⟨e, Or.inr (str_eq_of_not_lt h3 h4)⟩)

instance : IsTrans PW pwKeyLE where
  trans x y z hxy hyz := by
    unfold pwKeyLE at *
    rcases hxy with h1 | ⟨e1, t1⟩
    · rcases hyz with h2 | ⟨e2, _⟩
      · exact Or.inl (strLt_trans h1 h2)
      · exact Or.inl (e2 ▸ h1)
    · rcases hyz with h2 | ⟨e2, t2⟩
      · refine Or.inl ?_
        rw [e1]
        exact h2
      · exact Or.inr ⟨e1.trans e2, strLe_trans t1 t2⟩


theorem alookup_upsert_self {κ ν : Type} [DecidableEq κ] (k : κ) (v : ν)
    (l : List (κ × ν)) : alookup k (upsert k v l) = some v := by
  induction l with
  | nil => simp [upsert, alookup]
  | cons e r ih =>
    by_cases h : e.1 = k
    · simp [upsert, h, alookup]
    · simp [upsert, h, alookup, ih]

theorem mem_upsert_self {κ ν : Type} [DecidableEq κ] (k : κ) (v : ν)
    (l : List (κ × ν)) : (k, v) ∈ upsert k v l := by
  induction l with
  | nil => simp [upsert]
  | cons e r ih =>
    by_cases h : e.1 = k
    · simp [upsert, h]
    · simp [upsert, h]
      right
      exact ih

theorem upsert_upsert_same {κ ν : Type} [DecidableEq κ] (k : κ) (v v' : ν)
    (l : List (κ × ν)) : upsert k v (upsert k v' l) = upsert k v l := by
  induction l with
  | nil => simp [upsert]
  | cons e r ih =>
    by_cases h : e.1 = k
    · simp [upsert, h]
    · simp [upsert, h, ih]

theorem upsert_absorb {κ ν : Type} [DecidableEq κ] {k : κ} {v : ν}
    {l : List (κ × ν)} (h : alookup k l = some v) : upsert k v l = l := by
  induction l with
  | nil => simp [alookup] at h
  | cons e r ih =>
    obtain ⟨k1, v1⟩ := e
    by_cases he : k1 = k
    · subst he
      simp [alookup] at h
      simp [upsert, h]
    · simp [alookup, he] at h
      simp [upsert, he, ih h]

theorem alookup_upsert_ne {κ ν : Type} [DecidableEq κ] {k k' : κ} (hne : k' ≠ k)
    (v : ν) (l : List (κ × ν)) : alookup k (upsert k' v l) = alookup k l := by
  induction l with
  | nil => simp [upsert, alookup, hne]
  | cons e r ih =>
    by_cases he : e.1 = k'
    · simp [upsert, he, alookup, hne, he ▸ hne]
    · simp [upsert, he, alookup, ih]

theorem alookup_foldl_upsert_notmem {κ ν β : Type} [DecidableEq κ]
    (key : β → κ) (val : β → ν) (k : κ) (ws : List β)
    (h : ∀ b ∈ ws, key b ≠ k) :
    ∀ T : List (κ × ν),
      alookup k (ws.foldl (fun t b => upsert (key b) (val b) t) T) = alookup k T := by
  induction ws with
  | nil => intro T; rfl
  | cons b rest ih =>
    intro T
    have hb : key b ≠ k := h b (List.mem_cons_self b rest)
    have hrest : ∀ b' ∈ rest, key b' ≠ k := fun b' hb' => h b' (List.mem_cons_of_mem b hb')
    calc alookup k ((b :: rest).foldl (fun t b => upsert (key b) (val b) t) T)
        = alookup k (rest.foldl (fun t b => upsert (key b) (val b) t)
            (upsert (key b) (val b) T)) := rfl
      _ = alookup k (upsert (key b) (val b) T) := ih hrest _
      _ = alookup k T := alookup_upsert_ne hb _ _

theorem foldl_upsert_idem {κ ν β : Type} [DecidableEq κ]
    (key : β → κ) (val : β → ν) (ws : List β) (hnd : (ws.map key).Nodup) :
    ∀ T : List (κ × ν),
      ws.foldl (fun t b => upsert (key b) (val b) t)
        (ws.foldl (fun t b => upsert (key b) (val b) t) T)
      = ws.foldl (fun t b => upsert (key b) (val b) t) T := by
  induction ws with
  | nil => intro T; rfl
  | cons b rest ih =>
    intro T
    simp only [List.map_cons, List.nodup_cons] at hnd
    obtain ⟨hnotin, hndrest⟩ := hnd
    have hknot : ∀ b' ∈ rest, key b' ≠ key b := by
      intro b' hb' he
      exact hnotin (he ▸ List.mem_map_of_mem key hb')
    have habs : alookup (key b) (rest.foldl (fun t b => upsert (key b) (val b) t)
        (upsert (key b) (val b) T)) = some (val b) := by
      rw [alookup_foldl_upsert_notmem key val (key b) rest hknot]
      exact alookup_upsert_self _ _ _
    calc (b :: rest).foldl (fun t b => upsert (key b) (val b) t)
          ((b :: rest).foldl (fun t b => upsert (key b) (val b) t) T)
        = rest.foldl (fun t b => upsert (key b) (val b) t)
            (upsert (key b) (val b)
              (rest.foldl (fun t b => upsert (key b) (val b) t)
                (upsert (key b) (val b) T))) := rfl
      _ = rest.foldl (fun t b => upsert (key b) (val b) t)
            (rest.foldl (fun t b => upsert (key b) (val b) t)
              (upsert (key b) (val b) T)) := by rw [upsert_absorb habs]
      _ = rest.foldl (fun t b => upsert (key b) (val b) t)
            (upsert (key b) (val b) T) := ih hndrest _

theorem txFoldl_committed (fs : List (DB → DB)) (c w : DB) :
    ((fs.foldl (fun t f => txApply f t) ⟨c, w⟩)).committed = c := by
  induction fs generalizing w with
  | nil => rfl
  | cons f r ih => exact ih (f w)

theorem put_eq_subwrites (db : DB) (addr : Addr) (cp : CheckpointInput)
    (md : ValueObj) (nv : List (String × Nat)) :
    put db addr cp md nv
    = subwriteMergeVersions addr nv
        (subwriteChannelValues addr cp (subwriteCheckpointRow addr cp md db)) := rfl

theorem matchesFilter_iff : ∀ (F md : ValueObj),
    matchesFilter F md = true ↔
      ∀ k v, (k, v) ∈ objEntries F → objLookup k md = some v
  | .nil, md => by simp [matchesFilter, objEntries]
  | .cons k v rest, md => by
    have ih := matchesFilter_iff rest md
    constructor
    · intro h k' v' hmem
      simp only [matchesFilter, Bool.and_eq_true] at h
      obtain ⟨h1, h2⟩ := h
      simp only [objEntries, List.mem_cons] at hmem
      rcases hmem with heq | hmem
      · injection heq with hk hv
        subst hk; subst hv
        cases hl : objLookup k' md with
        | none => rw [hl] at h1; simp at h1
        | some w =>
          rw [hl] at h1
          simp at h1
          rw [h1]
      · exact ih.mp h2 k' v' hmem
    · intro h
      simp only [matchesFilter, Bool.and_eq_true]
      refine ⟨?_, ih.mpr fun k' v' hm => h k' v' (by simp [objEntries, hm])⟩
      have hk := h k v (by simp [objEntries])
      rw [hk]
      simp

theorem mem_listCheckpoints_none (db : DB) (F : ValueObj) (t : CheckpointTuple) :
    t ∈ listCheckpoints db none F ↔
      ∃ e, e ∈ db.checkpoints ∧ matchesFilter F e.2.metadata = true
        ∧ t = assembleTuple db e.1 e.2 := by
  unfold listCheckpoints
  simp only [List.mem_map, List.mem_filter]
  constructor
  · rintro ⟨e, ⟨hmem, hfil⟩, rfl⟩
    simp only [Bool.true_and] at hfil
    exact ⟨e, (List.perm_insertionSort newerFirst db.checkpoints).mem_iff.mp hmem, hfil, rfl⟩
  · rintro ⟨e, hmem, hfil, rfl⟩
    refine ⟨e, ⟨(List.perm_insertionSort newerFirst db.checkpoints).mem_iff.mpr hmem, ?_⟩, rfl⟩
    simpa using hfil

/-- The sort key of a pending write: (channel, task). -/
def PW.key (w : PW) : String × String := (w.channel, w.task_id)

theorem pwKeyLE_antisymm_key {x y : PW} (hxy : pwKeyLE x y) (hyx : pwKeyLE y x) :
    PW.key x = PW.key y := by
  unfold pwKeyLE at hxy hyx
  unfold PW.key
  rcases hxy with h1 | ⟨e1, t1⟩
  · rcases hyx with h2 | ⟨e2, _⟩
    · exact absurd h2 (strLt_asymm h1)
    · rw [e2] at h1
      exact absurd h1 (strLt_irrefl _)
  · rcases hyx with h2 | ⟨e2, t2⟩
    · rw [e1] at h2
      exact absurd h2 (strLt_irrefl _)
    · rw [e1, strLe_antisymm t1 t2]

theorem sorted_perm_nodupkeys_eq {l₁ l₂ : List PW} (hp : List.Perm l₁ l₂)
    (hs₁ : l₁.Sorted pwKeyLE) (hs₂ : l₂.Sorted pwKeyLE)
    (hnd : (l₁.map PW.key).Nodup) : l₁ = l₂ := by
  induction l₁ generalizing l₂ with
  | nil => exact (hp.symm.eq_nil).symm
  | cons a t₁ ih =>
    cases l₂ with
    | nil => exact absurd hp.eq_nil (List.cons_ne_nil a t₁)
    | cons b t₂ =>
      have hab : a = b := by
        have ha2 : a ∈ b :: t₂ := hp.mem_iff.mp (List.mem_cons_self a t₁)
        have hb1 : b ∈ a :: t₁ := hp.mem_iff.mpr (List.mem_cons_self b t₂)
        rcases List.mem_cons.mp ha2 with h | hat₂
        · exact h
        rcases List.mem_cons.mp hb1 with h | hbt₁
        · exact h.symm
        have hle1 : pwKeyLE a b := (List.sorted_cons.mp hs₁).1 b hbt₁
        have hle2 : pwKeyLE b a := (List.sorted_cons.mp hs₂).1 a hat₂
        have hkey : PW.key a = PW.key b := pwKeyLE_antisymm_key hle1 hle2
        simp only [List.map_cons, List.nodup_cons] at hnd
        exact absurd (hkey ▸ List.mem_map_of_mem PW.key hbt₁) hnd.1
      subst hab
      have hp' : List.Perm t₁ t₂ := hp.cons_inv
      have hnd' : (t₁.map PW.key).Nodup := by
        simp only [List.map_cons, List.nodup_cons] at hnd
        exact hnd.2
      rw [ih hp' (List.sorted_cons.mp hs₁).2 (List.sorted_cons.mp hs₂).2 hnd']

theorem countP_pendingTriples (addr : Addr) (task ch : String) :
    ∀ l : List ((Addr × String × String) × Value),
      (l.filterMap (fun e =>
          if e.1.1 = addr then some (⟨e.1.2.1, e.1.2.2, e.2⟩ : PW) else none)).countP
        (fun w => decide (w.task_id = task) && decide (w.channel = ch))
      = l.countP (fun e => decide (e.1 = (addr, task, ch))) := by
  intro l
  induction l with
  | nil => rfl
  | cons e r ih =>
    obtain ⟨⟨a, t, c⟩, v⟩ := e
    by_cases ha : a = addr
    · subst ha
      simp only [List.filterMap_cons, if_pos rfl, List.countP_cons, ih]
      by_cases hm : t = task ∧ c = ch
      · obtain ⟨rfl, rfl⟩ := hm
        simp
        exact ih
      · have hm' : ¬ ((a, t, c) = (a, task, ch)) := by
          intro hcon
          injection hcon with h1 h2
          injection h2 with h2 h3
          exact hm ⟨h2, h3⟩
        simp [hm, hm']
        exact ih
    · have hm' : ¬ ((a, t, c) = (addr, task, ch)) := by
        intro hcon
        injection hcon with h1 h2
        exact ha h1
      simp only [List.filterMap_cons, if_neg ha, List.countP_cons, ih]
      simp [hm']

theorem countP_upsert_key {κ ν : Type} [DecidableEq κ] (k : κ) (v : ν) :
    ∀ l : List (κ × ν), (l.map Prod.fst).Nodup →
      (upsert k v l).countP (fun e => decide (e.1 = k)) = 1 := by
  intro l
  induction l with
  | nil => intro _; simp [upsert]
  | cons e r ih =>
    intro hnd
    obtain ⟨k1, v1⟩ := e
    simp only [List.map_cons, List.nodup_cons] at hnd
    obtain ⟨hnotin, hndr⟩ := hnd
    by_cases h : k1 = k
    · subst h
      have hz : r.countP (fun e => decide (e.1 = k1)) = 0 := by
        rw [List.countP_eq_zero]
        intro e he
        simp only [decide_eq_true_eq]
        intro hcon
        exact hnotin (hcon ▸ List.mem_map_of_mem Prod.fst he)
      simp [upsert, List.countP_cons, hz]
    · simp [upsert, h, List.countP_cons, ih hndr]

/-!
Claim theorems.
-/

/-- Claim C1: `put` is atomic across its three sub-writes (checkpoint
row, channel values, channel-version merge): after any prefix of the
sub-writes executed inside the transaction without reaching commit (a
backend error or crash rolls the transaction back), the visible state is
exactly the prior committed state; once commit is reached the visible
state is exactly the fully new state, which is the composition of all
three sub-writes — never a mix of old and new parts. -/
theorem put_atomic (db : DB) (addr : Addr) (cp : CheckpointInput)
    (md : ValueObj) (nv : List (String × Nat)) :
    (∀ k : Nat,
      txVisible (((putSubwrites addr cp md nv).take k).foldl
        (fun t f => txApply f t) (txBegin db)) = db)
    ∧ txVisible (txCommit ((putSubwrites addr cp md nv).foldl
        (fun t f => txApply f t) (txBegin db))) = put db addr cp md nv
    ∧ put db addr cp md nv
      = subwriteMergeVersions addr nv
          (subwriteChannelValues addr cp (subwriteCheckpointRow addr cp md db)) := by
  refine ⟨?_, rfl, rfl⟩
  intro k
  exact txFoldl_committed _ db db

/-- Claim C6: writing a checkpoint whose channel_values mapping is empty
and reading it back returns an empty mapping, not an absent or null
value, for every backend state and checkpoint address: `getTuple` yields
a present tuple whose channel_values is exactly the empty mapping. -/
theorem empty_channel_values_roundtrip (db : DB) (addr : Addr)
    (parent : Option String) (sends : ValueList) (md : ValueObj)
    (nv : List (String × Nat)) :
    ∃ t, getTuple (put db addr ⟨parent, [], sends⟩ md nv) addr = some t
      ∧ t.channel_values = [] := by
  have hck : (put db addr ⟨parent, [], sends⟩ md nv).checkpoints
      = upsert addr ⟨parent, sanitizeObj md, sends⟩ db.checkpoints := by
    rw [put_eq_subwrites]
    simp [subwriteMergeVersions, subwriteChannelValues, subwriteCheckpointRow]
  have hcv : (put db addr ⟨parent, [], sends⟩ md nv).channel_values
      = upsert addr [] db.channel_values := by
    rw [put_eq_subwrites]
    simp [subwriteMergeVersions, subwriteChannelValues, subwriteCheckpointRow]
  have hget : getTuple (put db addr ⟨parent, [], sends⟩ md nv) addr
      = some (assembleTuple (put db addr ⟨parent, [], sends⟩ md nv) addr
          ⟨parent, sanitizeObj md, sends⟩) := by
    unfold getTuple
    rw [hck, alookup_upsert_self]
  refine ⟨_, hget, ?_⟩
  show (alookup addr (put db addr ⟨parent, [], sends⟩ md nv).channel_values).getD [] = []
  rw [hcv, alookup_upsert_self]
  rfl

/-- Claim C2: for every metadata filter F, `list` returns a stored
checkpoint iff, for every key present in F, the checkpoint metadata
contains that key with a structurally (deeply) equal value; the empty
filter returns all stored checkpoints; and a filter no stored checkpoint
satisfies returns the empty sequence. -/
theorem list_filter_semantics (db : DB) (F : ValueObj) :
    (∀ t, t ∈ listCheckpoints db none F ↔
        ∃ e, e ∈ db.checkpoints ∧ t = assembleTuple db e.1 e.2
          ∧ ∀ k v, (k, v) ∈ objEntries F → objLookup k e.2.metadata = some v)
    ∧ (∀ t, t ∈ listCheckpoints db none ValueObj.nil ↔
        ∃ e, e ∈ db.checkpoints ∧ t = assembleTuple db e.1 e.2)
    ∧ ((∀ e ∈ db.checkpoints, matchesFilter F e.2.metadata = false) →
        listCheckpoints db none F = []) := by
  refine ⟨?_, ?_, ?_⟩
  · intro t
    rw [mem_listCheckpoints_none]
    constructor
    · rintro ⟨e, hm, hf, rfl⟩
      exact ⟨e, hm, rfl, (matchesFilter_iff F _).mp hf⟩
    · rintro ⟨e, hm, rfl, hprop⟩
      exact ⟨e, hm, (matchesFilter_iff F _).mpr hprop, rfl⟩
  · intro t
    rw [mem_listCheckpoints_none]
    constructor
    · rintro ⟨e, hm, _, rfl⟩
      exact ⟨e, hm, rfl⟩
    · rintro ⟨e, hm, rfl⟩
      exact ⟨e, hm, rfl, rfl⟩
  · intro h
    unfold listCheckpoints
    rw [List.map_eq_nil_iff, List.filter_eq_nil_iff]
    intro e he
    have he' : e ∈ db.checkpoints :=
      (List.perm_insertionSort newerFirst db.checkpoints).mem_iff.mp he
    simp [h e he']

/-- Witness for C2, at the fixture of `test_search`: the filter
query_4 = {source: "update", step: 1}, which no stored checkpoint
satisfies, returns the empty sequence. -/
theorem list_filter_semantics_witness : listCheckpoints testDb none query4 = [] :=
  (list_filter_semantics testDb query4).2.2 (by decide)

/-- Claim C3: the read path returns the pending writes of a checkpoint
as (task_id, channel, value) triples sorted by channel name first, then
by task identifier; with distinct (channel, task) keys the result is
independent of append order; and on the fixture of
`test_write_and_read_pending_writes_and_sends` — channels [w1, w2] for
task "world", then the sentinel channel for task "hello" — the read is
(hello, TASKS, w3v), (world, w1, w1v), (world, w2, w2v), the sentinel
entry sorting before the ordinary channel names, and the swapped append
order reads identically. -/
theorem pending_writes_read_order :
    (∀ (db : DB) (addr : Addr),
        (readPendingWrites db addr).Sorted pwKeyLE
        ∧ List.Perm (readPendingWrites db addr) (pendingFor db addr))
    ∧ (∀ (db db' : DB) (addr : Addr),
        List.Perm (pendingFor db addr) (pendingFor db' addr) →
        ((pendingFor db addr).map PW.key).Nodup →
        readPendingWrites db addr = readPendingWrites db' addr)
    ∧ readPendingWrites writesDb addr1
      = [⟨"hello", TASKS, .str "w3v"⟩, ⟨"world", "w1", .str "w1v"⟩,
         ⟨"world", "w2", .str "w2v"⟩]
    ∧ readPendingWrites writesDbSwapped addr1 = readPendingWrites writesDb addr1 := by
  refine ⟨?_, ?_, ?_, ?_⟩
  · intro db addr
    exact ⟨List.sorted_insertionSort pwKeyLE _, List.perm_insertionSort pwKeyLE _⟩
  · intro db db' addr hperm hnd
    apply sorted_perm_nodupkeys_eq
    · exact ((List.perm_insertionSort pwKeyLE _).trans hperm).trans
        (List.perm_insertionSort pwKeyLE _).symm
    · exact List.sorted_insertionSort pwKeyLE _
    · exact List.sorted_insertionSort pwKeyLE _
    · exact ((List.perm_insertionSort pwKeyLE _).map PW.key).nodup_iff.mpr hnd
  · decide
  · decide

/-- Witness for C3: the two append orders of the fixture read back
identically, through the order-independence part of the theorem. -/
theorem pending_writes_read_order_witness :
    readPendingWrites writesDb addr1 = readPendingWrites writesDbSwapped addr1 :=
  pending_writes_read_order.2.1 writesDb writesDbSwapped addr1 (by decide) (by decide)

/-- Claim C4: a metadata value containing embedded null bytes, once
written, reads back with the null bytes stripped — through direct lookup
(`getTuple`) and through a filter query matching the sanitized value. -/
theorem null_metadata_roundtrip (db : DB) (addr : Addr) (cp : CheckpointInput)
    (nv : List (String × Nat)) (k s : String) (hk : stripNullStr k = k) :
    ∃ t, getTuple (put db addr cp (.cons k (.str s) .nil) nv) addr = some t
      ∧ t.metadata = .cons k (.str (stripNullStr s)) .nil
      ∧ objLookup k t.metadata = some (.str (stripNullStr s))
      ∧ t ∈ listCheckpoints (put db addr cp (.cons k (.str s) .nil) nv) none
          (.cons k (.str (stripNullStr s)) .nil) := by
  have hsan : sanitizeObj (.cons k (.str s) .nil)
      = .cons k (.str (stripNullStr s)) .nil := by
    simp [sanitizeObj, sanitize, hk]
  have hck : (put db addr cp (.cons k (.str s) .nil) nv).checkpoints
      = upsert addr
          ⟨cp.parent_checkpoint_id, sanitizeObj (.cons k (.str s) .nil),
            cp.pending_sends⟩ db.checkpoints := by
    rw [put_eq_subwrites]
    simp [subwriteMergeVersions, subwriteChannelValues, subwriteCheckpointRow]
  have hget : getTuple (put db addr cp (.cons k (.str s) .nil) nv) addr
      = some (assembleTuple (put db addr cp (.cons k (.str s) .nil) nv) addr
          ⟨cp.parent_checkpoint_id, sanitizeObj (.cons k (.str s) .nil),
            cp.pending_sends⟩) := by
    unfold getTuple
    rw [hck, alookup_upsert_self]
  refine ⟨_, hget, ?_, ?_, ?_⟩
  · simp only [assembleTuple]
    exact hsan
  · simp only [assembleTuple]
    rw [hsan]
    simp [objLookup]
  · rw [mem_listCheckpoints_none]
    refine ⟨(addr, ⟨cp.parent_checkpoint_id,
      sanitizeObj (.cons k (.str s) .nil), cp.pending_sends⟩), ?_, ?_, rfl⟩
    · rw [hck]
      exact mem_upsert_self _ _ _
    · show matchesFilter _ (sanitizeObj (.cons k (.str s) .nil)) = true
      rw [hsan]
      simp [matchesFilter, objLookup]

/-- Witness for C4, at the fixture of `test_null_chars`: the value
written as "\x00abc" (null byte then abc) reads back as "abc" and is
found by the filter on "abc". -/
theorem null_metadata_roundtrip_witness :
    stripNullStr "\x00abc" = "abc"
    ∧ ∃ t, getTuple (put DB.empty addr1 cpEmpty
          (.cons "my_key" (.str "\x00abc") .nil) []) addr1 = some t
        ∧ t.metadata = .cons "my_key" (.str (stripNullStr "\x00abc")) .nil
        ∧ objLookup "my_key" t.metadata = some (.str (stripNullStr "\x00abc"))
        ∧ t ∈ listCheckpoints (put DB.empty addr1 cpEmpty
            (.cons "my_key" (.str "\x00abc") .nil) []) none
            (.cons "my_key" (.str (stripNullStr "\x00abc")) .nil) :=
  ⟨by decide,
   null_metadata_roundtrip DB.empty addr1 cpEmpty [] "my_key" "\x00abc" (by decide)⟩

/-- Claim C5: putWrites is idempotent per key: repeating a putWrites call
with the same (task_id, channel) keys replaces rather than duplicates,
leaving the backend state unchanged, and the read path returns exactly
one visible entry for that (checkpoint, task_id, channel). -/
theorem putWrites_idempotent :
    (∀ (db : DB) (addr : Addr) (task : String) (writes : List (String × Value)),
        (writes.map (fun e => stripNullStr e.1)).Nodup →
        putWrites (putWrites db addr task writes) addr task writes
          = putWrites db addr task writes)
    ∧ (∀ (db : DB) (addr : Addr) (task c : String) (v : Value),
        (db.pending_writes.map Prod.fst).Nodup →
        (readPendingWrites
            (putWrites (putWrites db addr task [(c, v)]) addr task [(c, v)]) addr).countP
          (fun w => decide (w.task_id = task)
            && decide (w.channel = stripNullStr c)) = 1) := by
  constructor
  · intro db addr task writes hnd
    have hnd' : (writes.map (fun e => (addr, task, stripNullStr e.1))).Nodup := by
      have hmm : writes.map (fun e => (addr, task, stripNullStr e.1))
          = (writes.map (fun e => stripNullStr e.1)).map
              (fun s => (addr, task, s)) := by
        rw [List.map_map]
        rfl
      rw [hmm]
      refine List.Nodup.map ?_ hnd
      intro s t h
      injection h with h1 h2
      injection h2 with h2 h3
    have key := foldl_upsert_idem
      (fun e : String × Value => (addr, task, stripNullStr e.1))
      (fun e : String × Value => e.2) writes hnd' db.pending_writes
    unfold putWrites
    simp only []
    congr 1
  · intro db addr task c v hnd
    have hpw : (putWrites (putWrites db addr task [(c, v)])
          addr task [(c, v)]).pending_writes
        = upsert (addr, task, stripNullStr c) v db.pending_writes := by
      unfold putWrites
      simp only [List.foldl_cons, List.foldl_nil]
      exact upsert_upsert_same _ _ _ _
    unfold readPendingWrites
    rw [(List.perm_insertionSort pwKeyLE _).countP_eq]
    unfold pendingFor
    rw [hpw, countP_pendingTriples]
    exact countP_upsert_key _ _ _ hnd

/-- Witness for C5: repeating the single write of
`test_write_and_read_pending_writes` leaves the state unchanged and the
read shows exactly one entry for (task1, channel1). -/
theorem putWrites_idempotent_witness :
    putWrites (putWrites DB.empty addr1 "task1" [("channel1", .str "somevalue")])
        addr1 "task1" [("channel1", .str "somevalue")]
      = putWrites DB.empty addr1 "task1" [("channel1", .str "somevalue")]
    ∧ (readPendingWrites (putWrites (putWrites DB.empty addr1 "task1"
          [("channel1", .str "somevalue")]) addr1 "task1"
          [("channel1", .str "somevalue")]) addr1).countP
        (fun w => decide (w.task_id = "task1")
          && decide (w.channel = stripNullStr "channel1")) = 1 :=
  ⟨putWrites_idempotent.1 DB.empty addr1 "task1"
      [("channel1", .str "somevalue")] (by decide),
   putWrites_idempotent.2 DB.empty addr1 "task1" "channel1"
      (.str "somevalue") (by decide)⟩

/-- Claim C7: for every parsed connection string, an absent port yields
the standard MySQL port 3306, an absent password yields the empty
string, and a present unix_socket query parameter is passed through as
the local-socket path override — in both the saver and the store. -/
theorem conn_string_defaults (p : ParsedUrl) :
    (p.port = none →
      (saverConnectArgs p).port = 3306 ∧ (storeConnectArgs p).port = 3306)
    ∧ (p.password = none →
      (saverConnectArgs p).password = "" ∧ (storeConnectArgs p).password = "")
    ∧ (∀ sock, dictGet "unix_socket" p.query = some sock →
      (saverConnectArgs p).unix_socket = some sock
      ∧ (storeConnectArgs p).unix_socket = some sock) := by
  refine ⟨?_, ?_, ?_⟩
  · intro h
    simp [saverConnectArgs, storeConnectArgs, pyNatOr, h]
  · intro h
    simp [saverConnectArgs, storeConnectArgs, pyStrOr, h]
  · intro sock h
    simp [saverConnectArgs, storeConnectArgs, h]

/-- Witness for C7: on a connection string with no port, no password and
unix_socket=/tmp/mysql.sock, both derivations give port 3306, empty
password, and the socket path. -/
theorem conn_string_defaults_witness :
    ((saverConnectArgs samplePU).port = 3306
      ∧ (storeConnectArgs samplePU).port = 3306)
    ∧ ((saverConnectArgs samplePU).password = ""
      ∧ (storeConnectArgs samplePU).password = "")
    ∧ ((saverConnectArgs samplePU).unix_socket = some "/tmp/mysql.sock"
      ∧ (storeConnectArgs samplePU).unix_socket = some "/tmp/mysql.sock") :=
  ⟨(conn_string_defaults samplePU).1 rfl,
   (conn_string_defaults samplePU).2.1 rfl,
   (conn_string_defaults samplePU).2.2 "/tmp/mysql.sock" (by decide)⟩

/-- Claim C8: the schema-missing classifier accepts an exception iff it
is a pymysql.ProgrammingError whose first argument equals the
NO_SUCH_TABLE error code; a classified error triggers the one-time
setup-and-retry of the original operation, and every other error is
surfaced unmodified. -/
theorem schema_missing_classifier :
    (∀ e : PyException, is_no_such_table_error e = true ↔
        (e.cls = ExcClass.programmingError ∧ e.code = NO_SUCH_TABLE))
    ∧ (∀ (α : Type) (op : DB → Except PyException (DB × α)) (setup : DB → DB)
        (db : DB) (e : PyException), op db = Except.error e →
        is_no_such_table_error e = false →
        runWithSchemaRetry op setup db = Except.error e)
    ∧ (∀ (α : Type) (op : DB → Except PyException (DB × α)) (setup : DB → DB)
        (db : DB) (e : PyException), op db = Except.error e →
        is_no_such_table_error e = true →
        runWithSchemaRetry op setup db = op (setup db)) := by
  refine ⟨?_, ?_, ?_⟩
  · intro e
    simp [is_no_such_table_error]
  · intro α op setup db e hop hcls
    unfold runWithSchemaRetry
    rw [hop]
    simp [hcls]
  · intro α op setup db e hop hcls
    unfold runWithSchemaRetry
    rw [hop]
    simp [hcls]

/-- Witness for C8: the ProgrammingError with code 1146 is classified as
schema-missing; an OperationalError is not and, through the retry
wrapper, is surfaced unmodified; the classified one is retried once
after setup. -/
theorem schema_missing_classifier_witness :
    is_no_such_table_error noTableExc = true
    ∧ runWithSchemaRetry
        (fun _ => (Except.error goneExc : Except PyException (DB × Unit)))
        id DB.empty
      = Except.error goneExc
    ∧ runWithSchemaRetry
        (fun _ => (Except.error noTableExc : Except PyException (DB × Unit)))
        id DB.empty
      = Except.error noTableExc :=
  ⟨(schema_missing_classifier.1 noTableExc).mpr ⟨rfl, rfl⟩,
   schema_missing_classifier.2.1 Unit
     (fun _ => Except.error goneExc) id DB.empty goneExc rfl (by decide),
   schema_missing_classifier.2.2 Unit
     (fun _ => Except.error noTableExc) id DB.empty noTableExc rfl (by decide)⟩

/-- Counterexample to C9 as stated: it is not the case that, in both the
checkpoint saver and the store, every cursor obtained through _cursor is
used only while self.lock is held — the store trace uses its cursor with
no lock held. -/
theorem cursor_lock_counterexample :
    ¬ (usesUnderLock false saverCursorTrace = true
       ∧ usesUnderLock false storeCursorTrace = true) := by decide

/-- Claim C9 (amended): in the checkpoint saver, every cursor obtained
through _cursor on the shared connection is used only while self.lock is
held for the full statement; in the store, _cursor returns a bare cursor
without acquiring any lock, so its use is not serialized by the guard. -/
theorem cursor_lock_amended :
    usesUnderLock false saverCursorTrace = true
    ∧ usesUnderLock false storeCursorTrace = false := by decide

/-- Claim C10: whenever the connection-string path names a database (a
non-empty segment after the leading slash), the saver and the store
derive identical connect arguments; when the path is empty the store
maps database to None while the saver passes the empty string, all other
arguments agreeing. -/
theorem saver_store_conn_args (p : ParsedUrl) :
    (p.path.drop 1 ≠ "" → saverConnectArgs p = storeConnectArgs p)
    ∧ (p.path.drop 1 = "" →
        (storeConnectArgs p).database = none
        ∧ (saverConnectArgs p).database = some ""
        ∧ { saverConnectArgs p with database := none }
          = { storeConnectArgs p with database := none }) := by
  constructor
  · intro h
    simp [saverConnectArgs, storeConnectArgs, h]
  · intro h
    refine ⟨?_, ?_, ?_⟩
    · simp [storeConnectArgs, h]
    · simp [saverConnectArgs, h]
    · simp [saverConnectArgs, storeConnectArgs]

/-- Witness for C10: with path /mydb both derivations agree exactly;
with path / the store passes database None while the saver passes the
empty string. -/
theorem saver_store_conn_args_witness :
    saverConnectArgs pathPU = storeConnectArgs pathPU
    ∧ (storeConnectArgs rootPU).database = none
    ∧ (saverConnectArgs rootPU).database = some "" :=
  ⟨(saver_store_conn_args pathPU).1 (by decide),
   ((saver_store_conn_args rootPU).2 (by decide)).1,
   ((saver_store_conn_args rootPU).2 (by decide)).2.1⟩

end LGMySQL
